import Mathlib

/-!
Shallow embedding of `src/emukit/core/optimization/acquisition_optimizer.py`:
the abstract acquisition-optimizer contract `AcquisitionOptimizerBase`, its
context-validation helper `_validate_context_parameters`, and the public
`optimize` entry point (validate context, build a `ContextManager`, delegate
to the `_optimize` hook, snap the result to the design-space grid, re-evaluate
the acquisition if rounding moved the point).

Modelling choices:
- Encoded points are finite numeric vectors (`List ℤ`, an exact numeric
  scalar type); `np.array_equal` is exact shape-and-element equality, which
  is `List` equality.
- Python exceptions are modelled with the provenance of the raise site: a
  `ValueError` raised by context validation versus an exception propagated
  unmodified out of the concrete `_optimize` hook.
- The observable side effects performed by the base class during one call
  (logger calls, `ContextManager` construction, the call to the hook, direct
  calls of `acquisition.evaluate` by the base) are recorded in an event trace.
- The method body contains no assignment to `self`, so the embedding threads
  the optimizer state explicitly and returns it alongside the result.
-/

namespace Emukit

/-- Vectors in the design-space encoding: finite numeric vectors compared by
exact shape-and-element equality, as `np.array_equal` does. -/
abbrev Vec : Type := List ℤ

/-- Modelled from the spec: `Parameter` (its class is not under src/) exposes
a name and a domain-membership check `check_in_domain(value) -> bool`. -/
structure Parameter where
  name : String
  check_in_domain : ℤ → Bool

/-- Token returned by `space.convert_to_gpyopt_design_space()`; its contents
belong to the external GPyOpt collaborator and are only stored and passed on. -/
structure DesignSpace where
  tag : Nat
deriving DecidableEq

/-- Modelled from the spec: `ParameterSpace` (its class is not under src/) is
an ordered collection of named parameters supporting `parameter_names`,
`get_parameter_by_name(name)`, `convert_to_gpyopt_design_space()` and
`round(vector)` (snap an arbitrary vector to the nearest valid encoding). -/
structure ParameterSpace where
  parameters : List Parameter
  round : Vec → Vec
  convert_to_gpyopt_design_space : DesignSpace

/-- The names of the parameters, in order. -/
def ParameterSpace.parameter_names (s : ParameterSpace) : List String :=
  s.parameters.map Parameter.name

/-- Modelled from the spec: `get_parameter_by_name(name) -> Parameter`, first
match in parameter order. -/
def ParameterSpace.get_parameter_by_name (s : ParameterSpace) (n : String) :
    Option Parameter :=
  s.parameters.find? (fun p => p.name == n)

/-- Modelled from the spec: `round` projects an arbitrary vector onto the
nearest valid encoding, so a vector that `round` has produced rounds to
itself; membership in the valid encodings coincides with being a fixed point
of `round`. -/
def ParameterSpace.roundIdem (s : ParameterSpace) : Prop :=
  ∀ v : Vec, s.round (s.round v) = s.round v

/-- The acquisition capability: `evaluate(point) -> value`, treated as a pure
scoring function. -/
structure Acquisition where
  evaluate : Vec → ℤ

/-- A context maps parameter names to fixed values and is iterated in
insertion order (a Python dict); modelled as an association list. -/
abbrev Context : Type := List (String × ℤ)

/-- Modelled from the spec: `ContextManager` (context_manager.py is not under
src/) is constructed from (space, context mapping, design-space encoding) and
holds them; its fixed dimensions correspond to the context entries. -/
structure ContextManager where
  space : ParameterSpace
  context : Context
  gpyopt_space : DesignSpace

/-- Number of fixed dimensions of a `ContextManager`: one per context entry. -/
def ContextManager.num_fixed (cm : ContextManager) : Nat :=
  cm.context.length

/-- Observable side effects performed by the base class itself during one
`optimize` call. `logWarning` keeps the source's argument list: the message
and the stray second positional argument of the `_log.warning` call. -/
inductive Event : Type where
  | logWarning (msg : String) (args : List String)
  | logInfo (msg : String)
  | buildCM (cm : ContextManager)
  | callHook
  | evalCall (x : Vec)

/-- Whether an event is a logger call. -/
def Event.isLog : Event → Bool
  | .logWarning _ _ => true
  | .logInfo _ => true
  | _ => false

/-- Whether an event is a warning-level logger call. -/
def Event.isWarning : Event → Bool
  | .logWarning _ _ => true
  | _ => false

/-- Whether an event is the construction of a `ContextManager`. -/
def Event.isBuildCM : Event → Bool
  | .buildCM _ => true
  | _ => false

/-- Whether an event is the invocation of the `_optimize` hook. -/
def Event.isCallHook : Event → Bool
  | .callHook => true
  | _ => false

/-- Whether an event is a direct call of `acquisition.evaluate` by the base. -/
def Event.isEvalCall : Event → Bool
  | .evalCall _ => true
  | _ => false

/-- How one `optimize` call ends: a normal return, a `ValueError` raised by
context validation, or an exception propagated unmodified out of the hook. -/
inductive Outcome : Type where
  | success (location : Vec) (value : ℤ)
  | contextError (msg : String)
  | hookRaised (e : String)
deriving DecidableEq

/-- Whether the call raised the context-validation `ValueError`. -/
def Outcome.isContextError : Outcome → Bool
  | .contextError _ => true
  | _ => false

/-- Whether the call returned normally. -/
def Outcome.isSuccess : Outcome → Bool
  | .success _ _ => true
  | _ => false

/-- The event trace of one `optimize` call together with how it ended. -/
structure OptimizeResult where
  trace : List Event
  outcome : Outcome

/-- `AcquisitionOptimizerBase`: holds the space, the cached design-space
conversion, and the abstract `_optimize` hook as a function field (the hook
may raise; on success it returns a (location, value) pair). -/
structure AcquisitionOptimizerBase where
  space : ParameterSpace
  gpyopt_space : DesignSpace
  _optimize : Acquisition → ContextManager → Except String (Vec × ℤ)

/-- The constructor `__init__`: stores the space and caches its design-space
conversion; these are the only writes to the instance in the whole class. -/
def AcquisitionOptimizerBase.init (space : ParameterSpace)
    (hook : Acquisition → ContextManager → Except String (Vec × ℤ)) :
    AcquisitionOptimizerBase :=
  ⟨space, space.convert_to_gpyopt_design_space, hook⟩

/-- The helper `_validate_context_parameters`: iterates the context in order;
raises `ValueError` at the first name not in `parameter_names`; for a
recognized name logs a warning when its value is out of domain (the source
passes the tail of the sentence as a stray second positional argument) and an
info message otherwise. Returns the log events emitted, in order, and the
raised error message if any. -/
def AcquisitionOptimizerBase._validate_context_parameters
    (self : AcquisitionOptimizerBase) : Context → List Event × Option String
  | [] => ([], none)
  | (context_name, context_value) :: rest =>
    if context_name ∈ self.space.parameter_names then
      match self.space.get_parameter_by_name context_name with
      | some param =>
        let ev : Event :=
          if param.check_in_domain context_value = false then
            Event.logWarning (context_name ++ (" with value ") ++ toString context_value)
              [(" is out of the domain")]
          else
            Event.logInfo (("Parameter ") ++ context_name ++ (" fixed to ") ++
              toString context_value)
        let r := self._validate_context_parameters rest
        (ev :: r.1, r.2)
      | none =>
        ([], some (("Parameter ") ++ context_name ++ (" not found in the parameter space.")))
    else
      ([], some (context_name ++ (" appears as variable in context but not in the parameter space.")))

/-- The tail of `optimize` shared by both branches of the `context is None`
default: build the per-call `ContextManager`, call the `_optimize` hook, round
its location with `space.round`, and, when rounding changed the location under
exact equality, re-evaluate the acquisition there and return that value;
otherwise return the hook's pair unchanged. `logs` are the events validation
already emitted. -/
def AcquisitionOptimizerBase.optimizeAfterValidation (self : AcquisitionOptimizerBase)
    (acquisition : Acquisition) (context : Context) (logs : List Event) :
    AcquisitionOptimizerBase × OptimizeResult :=
  let context_manager : ContextManager := ⟨self.space, context, self.gpyopt_space⟩
  let t := logs ++ [Event.buildCM context_manager, Event.callHook]
  match self._optimize acquisition context_manager with
  | Except.error e => (self, ⟨t, Outcome.hookRaised e⟩)
  | Except.ok (max_x, max_value) =>
    let rounded_max_x := self.space.round max_x
    if max_x ≠ rounded_max_x then
      (self, ⟨t ++ [Event.evalCall rounded_max_x],
        Outcome.success rounded_max_x (acquisition.evaluate rounded_max_x)⟩)
    else
      (self, ⟨t, Outcome.success max_x max_value⟩)

/-- The public entry point `optimize(acquisition, context=None)`: a missing
context becomes the empty dict without validation; a supplied context is
validated first and the `ValueError` aborts the call before anything else
happens. The returned optimizer is the post-call state of `self`. -/
def AcquisitionOptimizerBase.optimize (self : AcquisitionOptimizerBase)
    (acquisition : Acquisition) (context : Option Context) :
    AcquisitionOptimizerBase × OptimizeResult :=
  match context with
  | none => self.optimizeAfterValidation acquisition [] []
  | some ctx =>
    let r := self._validate_context_parameters ctx
    match r.2 with
    | some msg => (self, ⟨r.1, Outcome.contextError msg⟩)
    | none => self.optimizeAfterValidation acquisition ctx r.1

/-- The error raised by the validation phase of `optimize` for a given
optional context, if any: a missing context is never validated. -/
def AcquisitionOptimizerBase.validationError (self : AcquisitionOptimizerBase) :
    Option Context → Option String
  | none => none
  | some ctx => (self._validate_context_parameters ctx).2

/-- The effective context `optimize` works with: the supplied one, or the
empty dict when the argument was `None`. -/
def effectiveContext : Option Context → Context
  | none => []
  | some ctx => ctx

/-- The `ContextManager` that `optimize` builds for a given optional context. -/
def AcquisitionOptimizerBase.builtCM (self : AcquisitionOptimizerBase)
    (context : Option Context) : ContextManager :=
  ⟨self.space, effectiveContext context, self.gpyopt_space⟩

/-- The spec's concrete scenario: one continuous parameter named x over the
interval [0, 10] with unit grid spacing. -/
def xParam : Parameter :=
  ⟨("x"), fun v => decide (0 ≤ v) && decide (v ≤ 10)⟩

/-- Snap one coordinate to the nearest even grid point (ties upward). -/
def nearestEven (q : ℤ) : ℤ :=
  2 * ((q + 1) / 2)

/-- A concrete one-parameter space whose valid encodings are the even grid
points; rounding snaps each coordinate to the nearest even integer. -/
def gridSpace : ParameterSpace :=
  ⟨[xParam], fun xs => xs.map nearestEven, ⟨0⟩⟩

/-- A stub acquisition: twice the first coordinate. -/
def stubAcquisition : Acquisition :=
  ⟨fun xs => 2 * xs.headD 0⟩

/-- A stub hook returning the off-grid point x = 3 with reported value 99. -/
def offGridHook : Acquisition → ContextManager → Except String (Vec × ℤ) :=
  fun _ _ => Except.ok ([(3 : ℤ)], 99)

/-- A stub hook returning the on-grid point x = 4 with reported value 42. -/
def onGridHook : Acquisition → ContextManager → Except String (Vec × ℤ) :=
  fun _ _ => Except.ok ([(4 : ℤ)], 42)

/-- A stub hook that raises. -/
def raisingHook : Acquisition → ContextManager → Except String (Vec × ℤ) :=
  fun _ _ => Except.error ("search blew up")

/-- The optimizer over `gridSpace` with the off-grid stub hook. -/
def offGridOptimizer : AcquisitionOptimizerBase :=
  AcquisitionOptimizerBase.init gridSpace offGridHook

/-- The optimizer over `gridSpace` with the on-grid stub hook. -/
def onGridOptimizer : AcquisitionOptimizerBase :=
  AcquisitionOptimizerBase.init gridSpace onGridHook

/-- The optimizer over `gridSpace` with the raising stub hook. -/
def raisingOptimizer : AcquisitionOptimizerBase :=
  AcquisitionOptimizerBase.init gridSpace raisingHook

/-- A parameter list containing a name yields a hit for `find?` by that name. -/
theorem find_by_name_some (l : List Parameter) (n : String)
    (h : n ∈ l.map Parameter.name) :
    ∃ p, l.find? (fun p => p.name == n) = some p := by
  induction l with
  | nil => simp at h
  | cons p ps ih =>
    rw [List.find?_cons]
    cases hpn : (p.name == n) with
    | true => exact ⟨p, rfl⟩
    | false =>
      simp only [cond_false]
      apply ih
      simp only [List.map_cons, List.mem_cons] at h
      rcases h with h | h
      · subst h; simp at hpn
      · exact h

/-- A name that occurs in `parameter_names` is found by `get_parameter_by_name`. -/
theorem get_parameter_some (s : ParameterSpace) (n : String)
    (h : n ∈ s.parameter_names) : ∃ p, s.get_parameter_by_name n = some p :=
  find_by_name_some s.parameters n h

/-- Validation succeeds on a context whose keys are all parameter names. -/
theorem validate_ok_of_keys (self : AcquisitionOptimizerBase) (ctx : Context)
    (h : ∀ p ∈ ctx, p.1 ∈ self.space.parameter_names) :
    (self._validate_context_parameters ctx).2 = none := by
  induction ctx with
  | nil => rfl
  | cons e rest ih =>
    obtain ⟨n, v⟩ := e
    have hn : n ∈ self.space.parameter_names := h (n, v) (List.mem_cons_self _ _)
    obtain ⟨p, hp⟩ := get_parameter_some self.space n hn
    simp only [AcquisitionOptimizerBase._validate_context_parameters, if_pos hn, hp]
    exact ih (fun q hq => h q (List.mem_cons_of_mem _ hq))

/-- Validation raises when some key of the context is not a parameter name. -/
theorem validate_err_of_bad (self : AcquisitionOptimizerBase) (ctx : Context)
    (h : ∃ p ∈ ctx, p.1 ∉ self.space.parameter_names) :
    (self._validate_context_parameters ctx).2.isSome = true := by
  induction ctx with
  | nil => simp at h
  | cons e rest ih =>
    obtain ⟨n, v⟩ := e
    by_cases hn : n ∈ self.space.parameter_names
    · obtain ⟨p, hp⟩ := get_parameter_some self.space n hn
      simp only [AcquisitionOptimizerBase._validate_context_parameters, if_pos hn, hp]
      apply ih
      obtain ⟨q, hq, hbad⟩ := h
      rcases List.mem_cons.mp hq with rfl | hq'
      · exact absurd hn hbad
      · exact ⟨q, hq', hbad⟩
    · simp only [AcquisitionOptimizerBase._validate_context_parameters, if_neg hn,
        Option.isSome_some]

/-- Every event emitted by validation is a logger call. -/
theorem validate_logs_isLog (self : AcquisitionOptimizerBase) (ctx : Context) :
    ∀ e ∈ (self._validate_context_parameters ctx).1, e.isLog = true := by
  induction ctx with
  | nil => intro e he; simp [AcquisitionOptimizerBase._validate_context_parameters] at he
  | cons q rest ih =>
    obtain ⟨n, v⟩ := q
    intro e he
    by_cases hn : n ∈ self.space.parameter_names
    · cases hp : self.space.get_parameter_by_name n with
      | none =>
        simp only [AcquisitionOptimizerBase._validate_context_parameters, if_pos hn, hp] at he
        simp at he
      | some p =>
        simp only [AcquisitionOptimizerBase._validate_context_parameters, if_pos hn, hp,
          List.mem_cons] at he
        rcases he with rfl | he'
        · by_cases hd : p.check_in_domain v = false
          · simp [hd, Event.isLog]
          · simp [hd, Event.isLog]
        · exact ih e he'
    · simp only [AcquisitionOptimizerBase._validate_context_parameters, if_neg hn] at he
      simp at he

/-- Logger events are neither hook calls, manager constructions, nor direct
acquisition evaluations. -/
theorem isLog_excludes (e : Event) (h : e.isLog = true) :
    e.isCallHook = false ∧ e.isBuildCM = false ∧ e.isEvalCall = false := by
  cases e <;> simp_all [Event.isLog, Event.isCallHook, Event.isBuildCM, Event.isEvalCall]

/-- The warning event for an out-of-domain entry of an all-recognized context
appears among the validation events. -/
theorem validate_warning_mem (self : AcquisitionOptimizerBase) (ctx : Context)
    (hkeys : ∀ p ∈ ctx, p.1 ∈ self.space.parameter_names)
    (n : String) (v : ℤ) (hmem : (n, v) ∈ ctx) (param : Parameter)
    (hp : self.space.get_parameter_by_name n = some param)
    (hdom : param.check_in_domain v = false) :
    Event.logWarning (n ++ (" with value ") ++ toString v) [(" is out of the domain")]
      ∈ (self._validate_context_parameters ctx).1 := by
  induction ctx with
  | nil => simp at hmem
  | cons q rest ih =>
    obtain ⟨m, w⟩ := q
    have hm : m ∈ self.space.parameter_names := hkeys (m, w) (List.mem_cons_self _ _)
    obtain ⟨pm, hpm⟩ := get_parameter_some self.space m hm
    simp only [AcquisitionOptimizerBase._validate_context_parameters, if_pos hm, hpm,
      List.mem_cons]
    rcases List.mem_cons.mp hmem with heq | hmem'
    · left
      injection heq with hmn hwv
      subst hmn; subst hwv
      have hpe : pm = param := by rw [hpm] at hp; exact Option.some.inj hp
      subst hpe
      simp [hdom]
    · right
      exact ih (fun q hq => hkeys q (List.mem_cons_of_mem _ hq)) hmem'

/-- Validation of a context whose first unrecognized name sits after an
all-recognized prefix emits exactly the prefix's events and raises for that
name, ignoring every later entry. -/
theorem validate_append_bad (self : AcquisitionOptimizerBase) (pre post : Context)
    (n : String) (v : ℤ)
    (hpre : ∀ p ∈ pre, p.1 ∈ self.space.parameter_names)
    (hn : n ∉ self.space.parameter_names) :
    self._validate_context_parameters (pre ++ (n, v) :: post) =
      ((self._validate_context_parameters pre).1,
        some (n ++ (" appears as variable in context but not in the parameter space."))) := by
  induction pre with
  | nil =>
    simp only [List.nil_append]
    simp [AcquisitionOptimizerBase._validate_context_parameters, if_neg hn]
  | cons q rest ih =>
    obtain ⟨m, w⟩ := q
    have hm : m ∈ self.space.parameter_names := hpre (m, w) (List.mem_cons_self _ _)
    obtain ⟨pm, hpm⟩ := get_parameter_some self.space m hm
    have ih' := ih (fun q hq => hpre q (List.mem_cons_of_mem _ hq))
    simp only [List.cons_append, AcquisitionOptimizerBase._validate_context_parameters,
      if_pos hm, hpm, List.append_eq, ih']

/-- Unfolding `optimizeAfterValidation` when the hook raises. -/
theorem oav_hook_error (self : AcquisitionOptimizerBase) (acq : Acquisition)
    (ctx : Context) (logs : List Event) (e : String)
    (hh : self._optimize acq ⟨self.space, ctx, self.gpyopt_space⟩ = Except.error e) :
    self.optimizeAfterValidation acq ctx logs =
      (self, ⟨logs ++ [Event.buildCM ⟨self.space, ctx, self.gpyopt_space⟩, Event.callHook],
        Outcome.hookRaised e⟩) := by
  simp only [AcquisitionOptimizerBase.optimizeAfterValidation, hh]

/-- Unfolding `optimizeAfterValidation` when the hook returns a point that
rounding moves: the base re-evaluates the acquisition at the rounded point. -/
theorem oav_hook_ok_moved (self : AcquisitionOptimizerBase) (acq : Acquisition)
    (ctx : Context) (logs : List Event) (x : Vec) (val : ℤ)
    (hh : self._optimize acq ⟨self.space, ctx, self.gpyopt_space⟩ = Except.ok (x, val))
    (hr : self.space.round x ≠ x) :
    self.optimizeAfterValidation acq ctx logs =
      (self, ⟨logs ++ [Event.buildCM ⟨self.space, ctx, self.gpyopt_space⟩, Event.callHook] ++
          [Event.evalCall (self.space.round x)],
        Outcome.success (self.space.round x) (acq.evaluate (self.space.round x))⟩) := by
  simp only [AcquisitionOptimizerBase.optimizeAfterValidation, hh]
  rw [if_pos (Ne.symm hr)]

/-- Unfolding `optimizeAfterValidation` when the hook returns a fixed point of
rounding: the hook's pair is returned unchanged. -/
theorem oav_hook_ok_stay (self : AcquisitionOptimizerBase) (acq : Acquisition)
    (ctx : Context) (logs : List Event) (x : Vec) (val : ℤ)
    (hh : self._optimize acq ⟨self.space, ctx, self.gpyopt_space⟩ = Except.ok (x, val))
    (hr : self.space.round x = x) :
    self.optimizeAfterValidation acq ctx logs =
      (self, ⟨logs ++ [Event.buildCM ⟨self.space, ctx, self.gpyopt_space⟩, Event.callHook],
        Outcome.success x val⟩) := by
  simp only [AcquisitionOptimizerBase.optimizeAfterValidation, hh]
  rw [if_neg (fun hne => hne hr.symm)]

/-- A missing context goes straight to the shared tail with the empty dict. -/
theorem optimize_none (self : AcquisitionOptimizerBase) (acq : Acquisition) :
    self.optimize acq none = self.optimizeAfterValidation acq [] [] := rfl

/-- A supplied context whose validation raises aborts the call with that
error and only the validation events in the trace. -/
theorem optimize_some_err (self : AcquisitionOptimizerBase) (acq : Acquisition)
    (ctx : Context) (msg : String)
    (h : (self._validate_context_parameters ctx).2 = some msg) :
    self.optimize acq (some ctx) =
      (self, ⟨(self._validate_context_parameters ctx).1, Outcome.contextError msg⟩) := by
  simp only [AcquisitionOptimizerBase.optimize, h]

/-- A supplied context whose validation succeeds continues with the shared
tail, carrying the validation events. -/
theorem optimize_some_ok (self : AcquisitionOptimizerBase) (acq : Acquisition)
    (ctx : Context)
    (h : (self._validate_context_parameters ctx).2 = none) :
    self.optimize acq (some ctx) =
      self.optimizeAfterValidation acq ctx (self._validate_context_parameters ctx).1 := by
  simp only [AcquisitionOptimizerBase.optimize, h]

/-- The shared tail returns `self` unchanged as the post-call state. -/
theorem oav_fst (self : AcquisitionOptimizerBase) (acq : Acquisition)
    (ctx : Context) (logs : List Event) :
    (self.optimizeAfterValidation acq ctx logs).1 = self := by
  simp only [AcquisitionOptimizerBase.optimizeAfterValidation]
  split
  · rfl
  · split <;> rfl

/-- `optimize` returns `self` unchanged as the post-call state. -/
theorem optimize_fst (self : AcquisitionOptimizerBase) (acq : Acquisition)
    (c : Option Context) : (self.optimize acq c).1 = self := by
  cases c with
  | none => exact oav_fst self acq [] []
  | some ctx =>
    cases h : (self._validate_context_parameters ctx).2 with
    | none => rw [optimize_some_ok self acq ctx h]; exact oav_fst self acq ctx _
    | some msg => rw [optimize_some_err self acq ctx msg h]

/-- Once validation has passed, the call can no longer end in the
context-validation error. -/
theorem oav_not_contextError (self : AcquisitionOptimizerBase) (acq : Acquisition)
    (ctx : Context) (logs : List Event) :
    (self.optimizeAfterValidation acq ctx logs).2.outcome.isContextError = false := by
  simp only [AcquisitionOptimizerBase.optimizeAfterValidation]
  split
  · rfl
  · split <;> rfl

/-- The trace of the shared tail: the carried events, then the manager
construction and the hook call, then at most direct evaluation calls. -/
theorem oav_trace (self : AcquisitionOptimizerBase) (acq : Acquisition)
    (ctx : Context) (logs : List Event) :
    ∃ tail : List Event,
      (self.optimizeAfterValidation acq ctx logs).2.trace =
        logs ++ [Event.buildCM ⟨self.space, ctx, self.gpyopt_space⟩, Event.callHook] ++ tail ∧
      ∀ e ∈ tail, e.isEvalCall = true := by
  simp only [AcquisitionOptimizerBase.optimizeAfterValidation]
  split
  · exact ⟨[], by simp, by simp⟩
  · split
    · rename_i max_x max_value heq hcond
      exact ⟨[Event.evalCall (self.space.round max_x)], by simp, by simp [Event.isEvalCall]⟩
    · exact ⟨[], by simp, by simp⟩

/-- When the shared tail ends with a propagated hook exception, its trace is
exactly the carried events, the manager construction, and the hook call. -/
theorem oav_hookRaised_trace (self : AcquisitionOptimizerBase) (acq : Acquisition)
    (ctx : Context) (logs : List Event) (err : String)
    (h : (self.optimizeAfterValidation acq ctx logs).2.outcome = Outcome.hookRaised err) :
    (self.optimizeAfterValidation acq ctx logs).2.trace =
      logs ++ [Event.buildCM ⟨self.space, ctx, self.gpyopt_space⟩, Event.callHook] := by
  revert h
  simp only [AcquisitionOptimizerBase.optimizeAfterValidation]
  split
  · intro _; rfl
  · split
    · intro h; cases h
    · intro h; cases h

/-- A normal return of the shared tail carries a location that is a fixed
point of `round`, provided `round` is idempotent. -/
theorem oav_success_fixed (self : AcquisitionOptimizerBase) (acq : Acquisition)
    (ctx : Context) (logs : List Event) (loc : Vec) (val : ℤ)
    (hidem : self.space.roundIdem)
    (h : (self.optimizeAfterValidation acq ctx logs).2.outcome = Outcome.success loc val) :
    self.space.round loc = loc := by
  revert h
  simp only [AcquisitionOptimizerBase.optimizeAfterValidation]
  split
  · intro h; cases h
  · split
    · intro h
      injection h with h1 h2
      subst h1
      exact hidem _
    · intro h
      injection h with h1 h2
      subst h1
      rename_i hcond
      exact (not_ne_iff.mp hcond).symm

/-- An evaluation-call event is not a logger event. -/
theorem isEvalCall_not_isLog (e : Event) (h : e.isEvalCall = true) : e.isLog = false := by
  cases e <;> simp_all [Event.isEvalCall, Event.isLog]

/-- Snapping to the even grid is idempotent on one coordinate. -/
theorem nearestEven_idem (q : ℤ) : nearestEven (nearestEven q) = nearestEven q := by
  unfold nearestEven
  omega

/-- The concrete space's rounding is idempotent. -/
theorem gridSpace_roundIdem : gridSpace.roundIdem := by
  intro v
  show (v.map nearestEven).map nearestEven = v.map nearestEven
  induction v with
  | nil => rfl
  | cons a l ih => simp [List.map_cons, nearestEven_idem, ih]

/-- C1: for every call to `optimize` in which the vector returned by the
`_optimize` hook differs (under exact element-wise equality of the encoded
vectors) from `space.round` applied to that vector, `optimize` returns the
rounded location paired with `acquisition.evaluate` at the rounded location;
the hook's reported value is discarded. -/
theorem C1_rounding_reevaluation (self : AcquisitionOptimizerBase) (acq : Acquisition)
    (c : Option Context) (x : Vec) (val : ℤ)
    (hv : self.validationError c = none)
    (hh : self._optimize acq ⟨self.space, effectiveContext c, self.gpyopt_space⟩ =
      Except.ok (x, val))
    (hr : self.space.round x ≠ x) :
    (self.optimize acq c).2.outcome =
      Outcome.success (self.space.round x) (acq.evaluate (self.space.round x)) := by
  cases c with
  | none =>
    rw [optimize_none, oav_hook_ok_moved self acq [] [] x val hh hr]
  | some ctx =>
    have h2 : (self._validate_context_parameters ctx).2 = none := hv
    rw [optimize_some_ok self acq ctx h2, oav_hook_ok_moved self acq ctx _ x val hh hr]

/-- Witness for C1: the stub hook reports x = 3 (off the even grid) with
value 99; the call returns the rounded x = 4 with the re-evaluated value. -/
theorem C1_rounding_reevaluation_witness :
    (offGridOptimizer.optimize stubAcquisition (some [(("x"), 3)])).2.outcome =
      Outcome.success (gridSpace.round [(3 : ℤ)])
        (stubAcquisition.evaluate (gridSpace.round [(3 : ℤ)])) :=
  C1_rounding_reevaluation offGridOptimizer stubAcquisition (some [(("x"), 3)])
    [(3 : ℤ)] 99 (by decide) rfl (by decide)

/-- C2: for every call to `optimize` in which the hook's vector is already a
fixed point of `space.round`, `optimize` returns exactly the hook's location
and reported value, and the base does not call `acquisition.evaluate` after
the hook returns. -/
theorem C2_on_grid_passthrough (self : AcquisitionOptimizerBase) (acq : Acquisition)
    (c : Option Context) (x : Vec) (val : ℤ)
    (hv : self.validationError c = none)
    (hh : self._optimize acq ⟨self.space, effectiveContext c, self.gpyopt_space⟩ =
      Except.ok (x, val))
    (hr : self.space.round x = x) :
    (self.optimize acq c).2.outcome = Outcome.success x val ∧
    ∀ e ∈ (self.optimize acq c).2.trace, e.isEvalCall = false := by
  cases c with
  | none =>
    rw [optimize_none, oav_hook_ok_stay self acq [] [] x val hh hr]
    refine ⟨rfl, ?_⟩
    intro e he
    simp only [List.nil_append, List.mem_cons, List.not_mem_nil, or_false] at he
    rcases he with rfl | rfl <;> rfl
  | some ctx =>
    have h2 : (self._validate_context_parameters ctx).2 = none := hv
    rw [optimize_some_ok self acq ctx h2, oav_hook_ok_stay self acq ctx _ x val hh hr]
    refine ⟨rfl, ?_⟩
    intro e he
    rcases List.mem_append.mp he with hlog | hrest
    · exact (isLog_excludes e (validate_logs_isLog self ctx e hlog)).2.2
    · simp only [List.mem_cons, List.not_mem_nil, or_false] at hrest
      rcases hrest with rfl | rfl <;> rfl

/-- Witness for C2: the stub hook reports the on-grid x = 4 with value 42;
the call returns exactly that pair and the base never evaluates directly. -/
theorem C2_on_grid_passthrough_witness :
    (onGridOptimizer.optimize stubAcquisition (some [(("x"), 3)])).2.outcome =
      Outcome.success [(4 : ℤ)] 42 ∧
    ∀ e ∈ (onGridOptimizer.optimize stubAcquisition (some [(("x"), 3)])).2.trace,
      e.isEvalCall = false :=
  C2_on_grid_passthrough onGridOptimizer stubAcquisition (some [(("x"), 3)])
    [(4 : ℤ)] 42 (by decide) rfl (by decide)

/-- C3: `optimize` raises the invalid-context-name error iff the supplied
context contains a key that is not a parameter name of the space; when it
raises, the `_optimize` hook is never invoked; for a context whose keys are
all parameter names no invalid-context error is raised. -/
theorem C3_invalid_context_iff (self : AcquisitionOptimizerBase) (acq : Acquisition)
    (ctx : Context) :
    ((∃ p ∈ ctx, p.1 ∉ self.space.parameter_names) ↔
      (self.optimize acq (some ctx)).2.outcome.isContextError = true) ∧
    ((self.optimize acq (some ctx)).2.outcome.isContextError = true →
      ∀ e ∈ (self.optimize acq (some ctx)).2.trace, e.isCallHook = false) := by
  cases h : (self._validate_context_parameters ctx).2 with
  | some msg =>
    rw [optimize_some_err self acq ctx msg h]
    constructor
    · constructor
      · intro _; rfl
      · intro _
        by_contra hno
        push_neg at hno
        rw [validate_ok_of_keys self ctx hno] at h
        cases h
    · intro _ e he
      exact (isLog_excludes e (validate_logs_isLog self ctx e he)).1
  | none =>
    rw [optimize_some_ok self acq ctx h]
    have hfalse := oav_not_contextError self acq ctx (self._validate_context_parameters ctx).1
    constructor
    · constructor
      · intro hbad
        have := validate_err_of_bad self ctx hbad
        rw [h] at this
        cases this
      · intro habs
        rw [hfalse] at habs
        cases habs
    · intro habs
      rw [hfalse] at habs
      cases habs

/-- Witness for C3 at a concrete instance with the unknown key y. -/
theorem C3_invalid_context_iff_witness :
    ((∃ p ∈ [((("y") : String), (1 : ℤ))], p.1 ∉ offGridOptimizer.space.parameter_names) ↔
      (offGridOptimizer.optimize stubAcquisition
        (some [(("y"), 1)])).2.outcome.isContextError = true) ∧
    ((offGridOptimizer.optimize stubAcquisition
        (some [(("y"), 1)])).2.outcome.isContextError = true →
      ∀ e ∈ (offGridOptimizer.optimize stubAcquisition (some [(("y"), 1)])).2.trace,
        e.isCallHook = false) :=
  C3_invalid_context_iff offGridOptimizer stubAcquisition [(("y"), 1)]

/-- A successfully returning hook makes the whole call return normally. -/
theorem oav_success_of_ok (self : AcquisitionOptimizerBase) (acq : Acquisition)
    (ctx : Context) (logs : List Event) (x : Vec) (val : ℤ)
    (hh : self._optimize acq ⟨self.space, ctx, self.gpyopt_space⟩ = Except.ok (x, val)) :
    (self.optimizeAfterValidation acq ctx logs).2.outcome.isSuccess = true := by
  by_cases hr : self.space.round x = x
  · rw [oav_hook_ok_stay self acq ctx logs x val hh hr]; rfl
  · rw [oav_hook_ok_moved self acq ctx logs x val hh hr]; rfl

/-- C4: assuming the spec-modelled idempotence of `space.round` (snapping to
the nearest valid encoding), every normal return of `optimize` carries a
location that is a fixed point of `space.round`, i.e. a member of the design
space's valid encodings, whether or not the hook's point was on the grid. -/
theorem C4_location_on_grid (self : AcquisitionOptimizerBase) (acq : Acquisition)
    (c : Option Context) (loc : Vec) (val : ℤ)
    (hidem : self.space.roundIdem)
    (hres : (self.optimize acq c).2.outcome = Outcome.success loc val) :
    self.space.round loc = loc := by
  cases c with
  | none =>
    rw [optimize_none] at hres
    exact oav_success_fixed self acq [] [] loc val hidem hres
  | some ctx =>
    cases h : (self._validate_context_parameters ctx).2 with
    | some msg =>
      rw [optimize_some_err self acq ctx msg h] at hres
      cases hres
    | none =>
      rw [optimize_some_ok self acq ctx h] at hres
      exact oav_success_fixed self acq ctx _ loc val hidem hres

/-- Witness for C4: the off-grid stub returns x = 3, the call returns the
even grid point x = 4, which is a fixed point of the rounding. -/
theorem C4_location_on_grid_witness : gridSpace.round [(4 : ℤ)] = [(4 : ℤ)] :=
  C4_location_on_grid offGridOptimizer stubAcquisition none [(4 : ℤ)] 8
    gridSpace_roundIdem (by decide)

/-- C5: for a context whose keys all name existing parameters, an entry whose
value fails its parameter's domain check is non-fatal: the call still returns
normally (with the hook completing normally), the warning-level diagnostic
with that name and value is among the emitted events for each such entry, and
the context is passed through unchanged into the constructed ContextManager. -/
theorem C5_out_of_domain_nonfatal (self : AcquisitionOptimizerBase) (acq : Acquisition)
    (ctx : Context) (x : Vec) (val : ℤ)
    (hkeys : ∀ p ∈ ctx, p.1 ∈ self.space.parameter_names)
    (hh : self._optimize acq ⟨self.space, ctx, self.gpyopt_space⟩ = Except.ok (x, val)) :
    (self.optimize acq (some ctx)).2.outcome.isSuccess = true ∧
    (∀ (n : String) (v : ℤ) (param : Parameter), (n, v) ∈ ctx →
      self.space.get_parameter_by_name n = some param →
      param.check_in_domain v = false →
      Event.logWarning (n ++ (" with value ") ++ toString v) [(" is out of the domain")]
        ∈ (self.optimize acq (some ctx)).2.trace) ∧
    Event.buildCM ⟨self.space, ctx, self.gpyopt_space⟩
      ∈ (self.optimize acq (some ctx)).2.trace := by
  have h2 := validate_ok_of_keys self ctx hkeys
  rw [optimize_some_ok self acq ctx h2]
  obtain ⟨tail, htr, -⟩ :=
    oav_trace self acq ctx (self._validate_context_parameters ctx).1
  rw [htr]
  refine ⟨oav_success_of_ok self acq ctx _ x val hh, ?_, ?_⟩
  · intro n v param hmem hp hdom
    exact List.mem_append.mpr (Or.inl (List.mem_append.mpr (Or.inl
      (validate_warning_mem self ctx hkeys n v hmem param hp hdom))))
  · exact List.mem_append.mpr (Or.inl (List.mem_append.mpr (Or.inr
      (List.mem_cons_self _ _))))

/-- Witness for C5: the context fixes x to 20, outside its domain [0, 10];
the call still succeeds, the warning is in the trace, and the manager holds
the value 20 unchanged. -/
theorem C5_out_of_domain_nonfatal_witness :
    (onGridOptimizer.optimize stubAcquisition (some [(("x"), 20)])).2.outcome.isSuccess =
      true ∧
    (∀ (n : String) (v : ℤ) (param : Parameter), (n, v) ∈ [((("x") : String), (20 : ℤ))] →
      onGridOptimizer.space.get_parameter_by_name n = some param →
      param.check_in_domain v = false →
      Event.logWarning (n ++ (" with value ") ++ toString v) [(" is out of the domain")]
        ∈ (onGridOptimizer.optimize stubAcquisition (some [(("x"), 20)])).2.trace) ∧
    Event.buildCM ⟨onGridOptimizer.space, [(("x"), 20)], onGridOptimizer.gpyopt_space⟩
      ∈ (onGridOptimizer.optimize stubAcquisition (some [(("x"), 20)])).2.trace :=
  C5_out_of_domain_nonfatal onGridOptimizer stubAcquisition [(("x"), 20)]
    [(4 : ℤ)] 42 (by decide) rfl

/-- C6: calling `optimize` without a context is observationally the same as
calling it with the empty mapping: identical post-state and result, no
validation warning or error events, and the ContextManager is built with
zero fixed dimensions. -/
theorem C6_default_context (self : AcquisitionOptimizerBase) (acq : Acquisition) :
    self.optimize acq none = self.optimize acq (some []) ∧
    (∀ e ∈ (self.optimize acq none).2.trace, e.isLog = false) ∧
    Event.buildCM (self.builtCM none) ∈ (self.optimize acq none).2.trace ∧
    (self.builtCM none).num_fixed = 0 := by
  have heq := optimize_some_ok self acq [] rfl
  refine ⟨?_, ?_, ?_, rfl⟩
  · rw [optimize_none, heq]
    rfl
  · rw [optimize_none]
    obtain ⟨tail, htr, htail⟩ := oav_trace self acq [] []
    rw [htr]
    intro e he
    rcases List.mem_append.mp he with h1 | h2
    · rcases List.mem_append.mp h1 with h0 | hbc
      · exact absurd h0 (List.not_mem_nil e)
      · simp only [List.mem_cons, List.not_mem_nil, or_false] at hbc
        rcases hbc with rfl | rfl <;> rfl
    · exact isEvalCall_not_isLog e (htail e h2)
  · rw [optimize_none]
    obtain ⟨tail, htr, -⟩ := oav_trace self acq [] []
    rw [htr]
    exact List.mem_append.mpr (Or.inl (List.mem_append.mpr (Or.inr
      (List.mem_cons_self _ _))))

/-- Witness for C6 at a concrete instance. -/
theorem C6_default_context_witness :
    offGridOptimizer.optimize stubAcquisition none =
      offGridOptimizer.optimize stubAcquisition (some []) ∧
    (∀ e ∈ (offGridOptimizer.optimize stubAcquisition none).2.trace, e.isLog = false) ∧
    Event.buildCM (offGridOptimizer.builtCM none)
      ∈ (offGridOptimizer.optimize stubAcquisition none).2.trace ∧
    (offGridOptimizer.builtCM none).num_fixed = 0 :=
  C6_default_context offGridOptimizer stubAcquisition

/-- C7: context validation iterates the mapping in order and raises at the
first entry whose name is unrecognized, validating nothing after it; for a
context whose names are all recognized, the domain-membership check never
causes rejection. -/
theorem C7_fail_fast (self : AcquisitionOptimizerBase) (pre post : Context)
    (n : String) (v : ℤ)
    (hpre : ∀ p ∈ pre, p.1 ∈ self.space.parameter_names)
    (hn : n ∉ self.space.parameter_names) :
    self._validate_context_parameters (pre ++ (n, v) :: post) =
      ((self._validate_context_parameters pre).1,
        some (n ++ (" appears as variable in context but not in the parameter space."))) ∧
    ∀ ctx : Context, (∀ p ∈ ctx, p.1 ∈ self.space.parameter_names) →
      (self._validate_context_parameters ctx).2 = none :=
  ⟨validate_append_bad self pre post n v hpre hn,
    fun ctx h => validate_ok_of_keys self ctx h⟩

/-- Witness for C7: entries after the unrecognized y are ignored even though
they would log events of their own. -/
theorem C7_fail_fast_witness :
    offGridOptimizer._validate_context_parameters
        ([((("x") : String), (3 : ℤ))] ++ (("y"), 1) :: [(("x"), 99)]) =
      ((offGridOptimizer._validate_context_parameters [((("x") : String), (3 : ℤ))]).1,
        some (("y") ++ (" appears as variable in context but not in the parameter space."))) ∧
    (∀ ctx : Context, (∀ p ∈ ctx, p.1 ∈ offGridOptimizer.space.parameter_names) →
      (offGridOptimizer._validate_context_parameters ctx).2 = none) :=
  C7_fail_fast offGridOptimizer [(("x"), 3)] [(("x"), 99)] ("y") 1
    (by decide) (by decide)

/-- C8: an exception raised inside the `_optimize` hook propagates unmodified
to the caller of `optimize` (no recovery, retry, or re-wrapping), and the
context-validation error is raised before the hook does any work. -/
theorem C8_hook_error_propagation (self : AcquisitionOptimizerBase) (acq : Acquisition)
    (c : Option Context) (err : String)
    (hv : self.validationError c = none)
    (hh : self._optimize acq ⟨self.space, effectiveContext c, self.gpyopt_space⟩ =
      Except.error err) :
    (self.optimize acq c).2.outcome = Outcome.hookRaised err ∧
    ∀ (acq' : Acquisition) (ctx' : Context),
      (self.optimize acq' (some ctx')).2.outcome.isContextError = true →
      ∀ e ∈ (self.optimize acq' (some ctx')).2.trace, e.isCallHook = false := by
  constructor
  · cases c with
    | none => rw [optimize_none, oav_hook_error self acq [] [] err hh]
    | some ctx =>
      have h2 : (self._validate_context_parameters ctx).2 = none := hv
      rw [optimize_some_ok self acq ctx h2, oav_hook_error self acq ctx _ err hh]
  · intro acq' ctx' hce e he
    cases h : (self._validate_context_parameters ctx').2 with
    | some msg =>
      rw [optimize_some_err self acq' ctx' msg h] at he
      exact (isLog_excludes e (validate_logs_isLog self ctx' e he)).1
    | none =>
      rw [optimize_some_ok self acq' ctx' h] at hce
      rw [oav_not_contextError] at hce
      cases hce

/-- Witness for C8: the raising stub's error text arrives unmodified. -/
theorem C8_hook_error_propagation_witness :
    (raisingOptimizer.optimize stubAcquisition (some [(("x"), 3)])).2.outcome =
      Outcome.hookRaised ("search blew up") ∧
    ∀ (acq' : Acquisition) (ctx' : Context),
      (raisingOptimizer.optimize acq' (some ctx')).2.outcome.isContextError = true →
      ∀ e ∈ (raisingOptimizer.optimize acq' (some ctx')).2.trace, e.isCallHook = false :=
  C8_hook_error_propagation raisingOptimizer stubAcquisition (some [(("x"), 3)])
    ("search blew up") (by decide) rfl

/-- C9: `optimize` never mutates the optimizer (nor, being pure in them, the
parameter space or acquisition it reads); the space reference and the cached
design-space encoding are written exactly once, at construction, and the
post-call state of every `optimize` call equals the pre-call state. -/
theorem C9_no_mutation (s : ParameterSpace)
    (hook : Acquisition → ContextManager → Except String (Vec × ℤ))
    (acq : Acquisition) (c : Option Context) :
    (AcquisitionOptimizerBase.init s hook).space = s ∧
    (AcquisitionOptimizerBase.init s hook).gpyopt_space =
      s.convert_to_gpyopt_design_space ∧
    ∀ self : AcquisitionOptimizerBase, (self.optimize acq c).1 = self :=
  ⟨rfl, rfl, fun self => optimize_fst self acq c⟩

/-- Witness for C9 at a concrete instance. -/
theorem C9_no_mutation_witness :
    (AcquisitionOptimizerBase.init gridSpace offGridHook).space = gridSpace ∧
    (AcquisitionOptimizerBase.init gridSpace offGridHook).gpyopt_space =
      gridSpace.convert_to_gpyopt_design_space ∧
    ∀ self : AcquisitionOptimizerBase,
      (self.optimize stubAcquisition none).1 = self :=
  C9_no_mutation gridSpace offGridHook stubAcquisition none

/-- C10: on both error paths of `optimize` — unknown context key, or an
exception from the hook — the post-state equals the pre-state, no
`ContextManager` is constructed after the failure point, and the base never
calls `acquisition.evaluate`. -/
theorem C10_error_paths_no_effects (self : AcquisitionOptimizerBase)
    (acq : Acquisition) (c : Option Context) :
    (self.optimize acq c).1 = self ∧
    ((self.optimize acq c).2.outcome.isContextError = true →
      ∀ e ∈ (self.optimize acq c).2.trace,
        e.isBuildCM = false ∧ e.isCallHook = false ∧ e.isEvalCall = false) ∧
    (∀ err : String, (self.optimize acq c).2.outcome = Outcome.hookRaised err →
      ∀ e ∈ (self.optimize acq c).2.trace, e.isEvalCall = false) := by
  refine ⟨optimize_fst self acq c, ?_, ?_⟩
  · intro hce e he
    cases c with
    | none =>
      rw [optimize_none] at hce
      rw [oav_not_contextError self acq [] []] at hce
      cases hce
    | some ctx =>
      cases h : (self._validate_context_parameters ctx).2 with
      | some msg =>
        rw [optimize_some_err self acq ctx msg h] at he
        obtain ⟨h1, h2, h3⟩ := isLog_excludes e (validate_logs_isLog self ctx e he)
        exact ⟨h2, h1, h3⟩
      | none =>
        rw [optimize_some_ok self acq ctx h] at hce
        rw [oav_not_contextError] at hce
        cases hce
  · intro err hre e he
    cases c with
    | none =>
      rw [optimize_none] at hre he
      rw [oav_hookRaised_trace self acq [] [] err hre] at he
      simp only [List.nil_append, List.mem_cons, List.not_mem_nil, or_false] at he
      rcases he with rfl | rfl <;> rfl
    | some ctx =>
      cases h : (self._validate_context_parameters ctx).2 with
      | some msg =>
        rw [optimize_some_err self acq ctx msg h] at hre
        cases hre
      | none =>
        rw [optimize_some_ok self acq ctx h] at hre he
        rw [oav_hookRaised_trace self acq ctx _ err hre] at he
        rcases List.mem_append.mp he with hlog | hbc
        · exact (isLog_excludes e (validate_logs_isLog self ctx e hlog)).2.2
        · simp only [List.mem_cons, List.not_mem_nil, or_false] at hbc
          rcases hbc with rfl | rfl <;> rfl

/-- Witness for C10 at a concrete instance whose context key y is unknown. -/
theorem C10_error_paths_no_effects_witness :
    (raisingOptimizer.optimize stubAcquisition (some [(("y"), 1)])).1 =
      raisingOptimizer ∧
    ((raisingOptimizer.optimize stubAcquisition
        (some [(("y"), 1)])).2.outcome.isContextError = true →
      ∀ e ∈ (raisingOptimizer.optimize stubAcquisition (some [(("y"), 1)])).2.trace,
        e.isBuildCM = false ∧ e.isCallHook = false ∧ e.isEvalCall = false) ∧
    (∀ err : String,
      (raisingOptimizer.optimize stubAcquisition (some [(("y"), 1)])).2.outcome =
        Outcome.hookRaised err →
      ∀ e ∈ (raisingOptimizer.optimize stubAcquisition (some [(("y"), 1)])).2.trace,
        e.isEvalCall = false) :=
  C10_error_paths_no_effects raisingOptimizer stubAcquisition (some [(("y"), 1)])

end Emukit
